import Mathlib

/-!
Shallow embedding of `src/vcfpy/cyhtslib/cyhtslib.pyx`: the BCF/VCF record
decoder (`Record`, `newRecord`), the `VCFFile` lifecycle (`set_samples`,
`load_header`, `__dealloc__`), and the `HeaderLineFactory`.

Python values that matter to the claims are modelled explicitly:
bytes and str are both carried as `String`, but where the distinction is
semantically relevant (bytes-vs-str comparison and `bytes.split(str)` in
`set_samples`) the Python 3 semantics is embedded faithfully.
Machine floats appear only as 32-bit patterns (`Nat < 2^32`), since the
QUAL logic is purely a bit-pattern comparison.
-/

namespace Cyhtslib

/-- A Python exception kind, as far as the embedded code can raise one. -/
inductive PyErr
  | typeError
  | assertionError
  | stopIteration
  deriving DecidableEq, Repr

/-- Result shape of the `FILTER` accessor: Python returns either a list of
strings or a single (byte-)string, and the distinction is part of the
contract. -/
inductive PyFilterVal
  | list (xs : List String)
  | str (s : String)
  deriving DecidableEq, Repr

/-- The semicolon character (written via its code to keep the source
ASCII-clean), the separator of the ID and FILTER fields. -/
def semiChar : Char := Char.ofNat 59

/-- The comma character, the separator `set_samples` joins and splits
with. -/
def commaChar : Char := Char.ofNat 44

/-- Python `str.split(sep)` for a one-character separator, on the
character list, with the accumulator of the current chunk (kept reversed):
splitting on every occurrence, keeping empty chunks, as Python does. -/
def pySplitCharList (sep : Char) : List Char → List Char → List String
  | [], acc => [String.mk acc.reverse]
  | c :: cs, acc =>
    if c = sep then String.mk acc.reverse :: pySplitCharList sep cs []
    else pySplitCharList sep cs (c :: acc)

/-- Python `str.split(sep)` for a one-character separator. -/
def pySplit (s : String) (sep : Char) : List String :=
  pySplitCharList sep s.data []

/-- Joining character lists with a one-character separator; the
specification-side inverse used to state what `pySplit` produces. -/
def joinCharLists (sep : Char) : List (List Char) → List Char
  | [] => []
  | [x] => x
  | x :: xs => x ++ sep :: joinCharLists sep xs

/-- The 32-bit pattern htslib reserves for a missing float
(`bcf_float_missing = 0x7f800001`). -/
def bcf_float_missing : Nat := 0x7f800001

/-- Modelled from the spec: htslib `bcf_float_is_missing` compares the exact
bit pattern of the float against the reserved missing sentinel, not a
generic not-a-number test (htslib itself is an external collaborator, not
under `src/`). -/
def bcf_float_is_missing (bits : Nat) : Bool := bits == bcf_float_missing

/-- A bit pattern is an IEEE-754 single NaN: exponent all ones, nonzero
mantissa.  Used only to state that QUAL detection is not a NaN test. -/
def isNanBits (bits : Nat) : Prop :=
  (bits / 2 ^ 23) % 2 ^ 8 = 255 ∧ bits % 2 ^ 23 ≠ 0

instance (bits : Nat) : Decidable (isNanBits bits) := by
  unfold isNanBits; infer_instance

/-- The fields of one raw `bcf1_t` record before any `bcf_unpack` call: the
fixed portion (`rid`, `pos`, `qual`) plus the still-packed variable groups
(shared string fields, filter ids, INFO, FORMAT).  INFO/FORMAT payloads are
irrelevant to the claims and carried as uninterpreted strings. -/
structure BcfRaw where
  rid : Int
  pos : Int
  qualBits : Nat
  rawId : String
  rawAlleles : List String
  rawFlt : List Int
  rawInfo : List String
  rawFmt : List String
  deriving DecidableEq, Repr

/-- A `bcf1_t` after `bcf_unpack`: each decoded group of the `d` sub-struct
is present exactly when the corresponding unpack bit was set.
`dStr` holds `d.id` and `d.allele`, `dFlt` holds `d.flt` (with
`n_flt = length`). -/
structure BcfDecoded where
  raw : BcfRaw
  dStr : Option (String × List String)
  dFlt : Option (List Int)
  dInfo : Option (List String)
  dFmt : Option (List String)
  deriving DecidableEq, Repr

/-- `bcf_unpack(b, mask)`: populate the decoded groups selected by `mask`
(1 = shared strings up to ALT, 2 = FILTER, 4 = INFO, 8 = FORMAT). -/
def bcf_unpack (b : BcfRaw) (mask : Nat) : BcfDecoded :=
  { raw := b
    dStr := if mask &&& 1 ≠ 0 then some (b.rawId, b.rawAlleles) else none
    dFlt := if mask &&& 2 ≠ 0 then some b.rawFlt else none
    dInfo := if mask &&& 4 ≠ 0 then some b.rawInfo else none
    dFmt := if mask &&& 8 ≠ 0 then some b.rawFmt else none }

/-- The parts of `VCFFile` a `Record` reads through its back-reference,
minus the one mutable cell (the PASS cache, threaded separately):
`id2name` is htslib `bcf_hdr_id2name` (reference id to contig name) and
`int2id` is htslib `bcf_hdr_int2id` over `BCF_DT_ID` (filter id to name);
both are modelled from the spec as the immutable Header Dictionary since
htslib is external to `src/`.  `lazy` is the decode-mode flag fixed at
open time. -/
structure VCFCtx where
  id2name : Int → String
  int2id : Int → String
  lazy : Bool

/-- The `Record` extension type: exclusively owned raw buffer (already
unpacked per the mode) plus the non-owning back-reference to the file. -/
structure Record where
  b : BcfDecoded
  vcf : VCFCtx

/-- `Record.__init__`: raises `TypeError` for any arguments whatsoever.
Arguments are irrelevant, so they are carried as an uninterpreted count pair. -/
def recordInitRaises (_nargs _nkwargs : Nat) : Except PyErr Record :=
  .error .typeError

/-- `newRecord(b, vcf)`: attach the buffer, unpack eagerly
(`bcf_unpack(b, 15)`) or lazily (`bcf_unpack(b, 1|2|4)`), attach the
owning file. -/
def newRecord (b : BcfRaw) (vcf : VCFCtx) : Record :=
  { b := if ¬vcf.lazy then bcf_unpack b 15 else bcf_unpack b (1 ||| 2 ||| 4)
    vcf := vcf }

/-- `Record.CHROM`: resolve `b.rid` through the header dictionary. -/
def Record.CHROM (r : Record) : String := r.vcf.id2name r.b.raw.rid

/-- `Record.POS`: `self.b.pos + 1`. -/
def Record.POS (r : Record) : Int := r.b.raw.pos + 1

/-- `Record.ID`: read `b.d.id`; the sentinel `.` gives `[]`, anything else
is split on `;`.  `none` models reading a group that was never unpacked. -/
def Record.ID (r : Record) : Option (List String) :=
  r.b.dStr.map fun p => if p.1 = "." then [] else pySplit p.1 semiChar

/-- `Record.REF`: `b.d.allele[0]`.  `none` models a missing unpack or an
out-of-bounds read on an alleleless record. -/
def Record.REF (r : Record) : Option String :=
  r.b.dStr.bind fun p => p.2.head?

/-- `Record.ALT`: `[b.d.allele[i] for i in range(1, n_allele)]` with
`n_allele` the length of the decoded allele array. -/
def Record.ALT (r : Record) : Option (List String) :=
  r.b.dStr.map fun p => p.2.drop 1

/-- `Record.QUAL` result: either the explicit absence marker (`None`) or
the float unchanged (as its bit pattern). -/
inductive QualVal
  | missing
  | val (bits : Nat)
  deriving DecidableEq, Repr

/-- `Record.QUAL`: `bcf_float_is_missing(q)` decides between `None` and the
value unchanged. -/
def Record.QUAL (r : Record) : QualVal :=
  if bcf_float_is_missing r.b.raw.qualBits then .missing else .val r.b.raw.qualBits

/-- `Record.FILTER`: the control flow of lines 319-336, with the mutable
`self.vcf.PASS` cell threaded as `pass0` (initially `-1` per `VCFFile`
construction).  Note the fall-throughs of the Python code: when `n == 1`,
the PASS id is cached and `flt[0]` differs from it, no `return` fires in
the `n == 1` block and control reaches the final `b";".join(...)`;
returns are `bytes` (`.str`) except for the literal lists. -/
def Record.FILTER (r : Record) (pass0 : Int) : Option PyFilterVal × Int :=
  match r.b.dFlt with
  | none => (none, pass0)
  | some flt =>
    let n := flt.length
    if n = 1 then
      if pass0 ≠ -1 then
        if flt.headI = pass0 then (some (.list []), pass0)
        else
          (some (.str (String.intercalate ";" (flt.map r.vcf.int2id))), pass0)
      else
        let v := r.vcf.int2id flt.headI
        if v = "PASS" then (some (.list ["PASS"]), flt.headI)
        else (some (.str v), pass0)
    else if n = 0 then (some (.list []), pass0)
    else (some (.str (String.intercalate ";" (flt.map r.vcf.int2id))), pass0)

/-! ## `VCFFile.set_samples` -/

/-- Input to `set_samples`: `None`, a pre-joined string, or a list of
names. -/
inductive SamplesArg
  | nullArg
  | strArg (s : String)
  | listArg (xs : List String)
  deriving DecidableEq, Repr

/-- Modelled from the spec: htslib `bcf_hdr_set_samples` (external to
`src/`) subsets the active sample list; it returns 0 when the argument is
the all-samples sentinel `-` or every requested name is present, a
negative status on error (never in this pure model), and otherwise the
1-based index of the first requested name absent from the file. -/
def bcf_hdr_set_samples (fileSamples : List String) (arg : String) : Int :=
  if arg = "-" then 0
  else
    match (pySplit arg commaChar).findIdx? (fun s => ¬fileSamples.contains s) with
    | none => 0
    | some i => (i : Int) + 1

/-- Python 3: a `bytes` value never compares equal to a `str`, whatever
the contents; `samples != "-"` in `set_samples` compares the processed
`bytes` against the `str` literal. -/
def pyBytesEqStr (_bytesVal _strVal : String) : Bool := false

/-- Python 3: `bytes.split(str_sep)` raises
`TypeError: a bytes-like object is required, not str`. -/
def pyBytesSplitStrSep (_bytesVal _strSep : String) : Except PyErr (List String) :=
  .error .typeError

/-- `VCFFile.set_samples(samples)`: normalise the argument to bytes
(`None` becomes `b"-"`, a list is comma-joined), call
`bcf_hdr_set_samples`, assert a non-negative status, and when the status
is nonzero and the argument is not the sentinel, split the request to
count it and maybe warn.  Returns the warnings written to stderr, or the
Python exception raised. -/
def set_samples (fileSamples : List String) (samples : SamplesArg) :
    Except PyErr (List String) := do
  let sBytes : String :=
    match samples with
    | .nullArg => "-"
    | .listArg xs => String.intercalate "," xs
    | .strArg s => s
  let ret := bcf_hdr_set_samples fileSamples sBytes
  if ret < 0 then throw .assertionError
  else if ret ≠ 0 ∧ ¬pyBytesEqStr sBytes "-" then do
    let s ← pyBytesSplitStrSep sBytes ","
    if ret < s.length then
      pure ["warning: not all samples in PED found in VCF"]
    else
      pure []
  else
    pure []

/-! ## `VCFFile.__dealloc__` -/

/-- One native release action performed during `VCFFile.__dealloc__`. -/
inductive FreeEvent
  | freeHdr
  | closeHts
  | freeTbx
  | freeHtsIdx
  deriving DecidableEq, Repr

/-- The four native pointers owned by a `VCFFile`; `true` means non-NULL.
`idx`/`hidx` are never assigned anywhere in this module, so on every
`VCFFile` the code constructs they stay NULL. -/
structure FileHandles where
  hdr : Bool
  hts : Bool
  idx : Bool
  hidx : Bool
  deriving DecidableEq, Repr

/-- `VCFFile.__dealloc__`: guarded releases in source order — destroy the
header struct (and NULL it), close the HTS file (and NULL it), destroy the
tabix index, destroy the hts index; the two index pointers are not NULLed
afterwards. -/
def vcfFileDealloc (st : FileHandles) : FileHandles × List FreeEvent :=
  let (st, ev) :=
    if st.hdr then ({ st with hdr := false }, [FreeEvent.freeHdr]) else (st, [])
  let (st, ev) :=
    if st.hts then ({ st with hts := false }, ev ++ [FreeEvent.closeHts]) else (st, ev)
  let ev := if st.idx then ev ++ [FreeEvent.freeTbx] else ev
  let ev := if st.hidx then ev ++ [FreeEvent.freeHtsIdx] else ev
  (st, ev)

/-! ## `HeaderLineFactory` and `VCFFile.load_header` -/

/-- Kind tag of a raw header entry (`bcf_hrec_t.type`): `BCF_HL_GEN` marks
the generic key/value lines, every other kind is parsed by tag. -/
inductive HrecType
  | gen
  | structured
  deriving DecidableEq, Repr

/-- One raw header entry `bcf_hrec_t`: kind tag, key, literal value (used
only for generic lines), and the parallel `keys`/`vals` arrays as a pair
list. -/
structure BcfHrec where
  type : HrecType
  key : String
  value : String
  pairs : List (String × String)
  deriving DecidableEq, Repr

/-- A typed header line as this module produces it: a generic key/value
line, or a line handed to a per-tag parsing strategy.  The strategies live
in the external `vcfpy.header` model; here a parsed line records which
registry entry ran (`parserKey`, the tag or the `__default__` fallback)
and the exact `(key, mapping_s)` payload passed to `parse_key_value`. -/
inductive HLine
  | generic (key value : String)
  | parsed (parserKey key mappingS : String)
  deriving DecidableEq, Repr

/-- Python `repr` of a string value, as used when rendering mapping
values.  Modelled for values free of quotes, escapes and non-printables:
wrap in single quotes (written via the character code to keep the source
ASCII-clean). -/
def pyRepr (s : String) : String :=
  String.singleton (Char.ofNat 39) ++ s ++ String.singleton (Char.ofNat 39)

/-- Python `OrderedDict` insertion: an existing key keeps its position and
takes the new value, a new key is appended. -/
def orderedDictInsert (m : List (String × String)) (k v : String) :
    List (String × String) :=
  if m.any (fun kv => kv.1 = k) then
    m.map fun kv => if kv.1 = k then (k, v) else kv
  else m ++ [(k, v)]

/-- `OrderedDict(pairs)`: left fold of insertions. -/
def orderedDictOfPairs (ps : List (String × String)) : List (String × String) :=
  ps.foldl (fun m kv => orderedDictInsert m kv.1 kv.2) []

/-- `HeaderLineFactory._build_parsed`: rebuild the ordered mapping from the
parallel arrays, render it as `k1=repr(v1),k2=repr(v2),...`, and dispatch
on the tag: a registered tag selects its parser, anything else falls back
to `__default__`.  `registeredTags` stands for the key set of the external
`build_header_parsers()` registry (modelled from the spec: a per-tag
parser registry with a default fallback, external to `src/`). -/
def buildParsed (registeredTags : List String) (hrec : BcfHrec) : HLine :=
  let mapping := orderedDictOfPairs hrec.pairs
  let mappingS :=
    String.intercalate "," (mapping.map fun kv => kv.1 ++ "=" ++ pyRepr kv.2)
  let parserKey :=
    if registeredTags.contains hrec.key then hrec.key else "__default__"
  .parsed parserKey hrec.key mappingS

/-- `HeaderLineFactory.build`: generic entries become plain `HeaderLine`
key/value objects, everything else goes through `_build_parsed`. -/
def buildHeaderLine (registeredTags : List String) (hrec : BcfHrec) : HLine :=
  if hrec.type = HrecType.gen then .generic hrec.key hrec.value
  else buildParsed registeredTags hrec

/-- `VCFFile.load_header`: build one typed line per raw entry, in source
order.  (The stray `factory.build(self.hdr.hrec[0])` call before the list
comprehension discards its result and `build` is effect-free, so it does
not change the produced sequence.) -/
def load_header (registeredTags : List String) (hrecs : List BcfHrec) :
    List HLine :=
  hrecs.map (buildHeaderLine registeredTags)

/-! ## Concrete inputs used by counterexamples and witnesses -/

/-- A small file context: contig 0 is `chr1`; filter id 0 resolves to
`PASS`, id 5 to `q10`, id 7 to `s50`. -/
def demoCtx : VCFCtx :=
  { id2name := fun i => if i = 0 then "chr1" else "chrX"
    int2id := fun i =>
      if i = 0 then "PASS" else if i = 5 then "q10" else if i = 7 then "s50" else "f"
    lazy := false }

/-- The same context opened in lazy mode. -/
def demoCtxLazy : VCFCtx := { demoCtx with lazy := true }

/-- A raw record with a two-entry filter list, two ids, three alleles. -/
def demoRaw : BcfRaw :=
  { rid := 0, pos := 99, qualBits := 0, rawId := "rs1;rs2"
    rawAlleles := ["A", "C", "T"], rawFlt := [5, 7], rawInfo := [], rawFmt := [] }

/-- A raw record whose single filter id 5 resolves to `q10`. -/
def demoRawQ10 : BcfRaw := { demoRaw with rawFlt := [5] }

/-- A raw record whose single filter id 0 resolves to `PASS`. -/
def demoRawPass : BcfRaw := { demoRaw with rawFlt := [0] }

/-- A raw record with the missing-QUAL sentinel bit pattern. -/
def demoRawQualMissing : BcfRaw := { demoRaw with qualBits := bcf_float_missing }

/-- A raw record whose QUAL bits are a quiet NaN distinct from the
missing sentinel. -/
def demoRawQualNan : BcfRaw := { demoRaw with qualBits := 0x7fc00000 }

/-- All four native handles live (the general dealloc scenario). -/
def allHandles : FileHandles :=
  { hdr := true, hts := true, idx := true, hidx := true }

/-- The handles of a `VCFFile` as this module actually builds one: header
and stream set, index pointers never assigned. -/
def moduleHandles : FileHandles :=
  { hdr := true, hts := true, idx := false, hidx := false }

/-- Raw header entries: a structured line with a registered tag, a generic
line, a structured line with an unregistered tag, and a repeat of the
first. -/
def demoHrecs : List BcfHrec :=
  [ { type := .structured, key := "INFO", value := ""
      pairs := [("ID", "DP"), ("Number", "1")] }
  , { type := .gen, key := "source", value := "demo", pairs := [] }
  , { type := .structured, key := "MYTAG", value := ""
      pairs := [("ID", "x")] }
  , { type := .structured, key := "INFO", value := ""
      pairs := [("ID", "DP"), ("Number", "1")] } ]

/-- Registered tag set standing for the external registry keys. -/
def demoTags : List String := ["INFO", "FILTER", "FORMAT", "contig"]

/-- A raw record carrying the no-id sentinel. -/
def demoRawDot : BcfRaw := { demoRaw with rawId := "." }

/-! ## Shared helper lemmas -/

theorem newRecord_b_raw (raw : BcfRaw) (vcf : VCFCtx) :
    (newRecord raw vcf).b.raw = raw := by
  cases h : vcf.lazy <;> simp [newRecord, bcf_unpack, h]

theorem newRecord_b_dStr (raw : BcfRaw) (vcf : VCFCtx) :
    (newRecord raw vcf).b.dStr = some (raw.rawId, raw.rawAlleles) := by
  cases h : vcf.lazy <;> simp [newRecord, bcf_unpack, h]

theorem newRecord_b_dFlt (raw : BcfRaw) (vcf : VCFCtx) :
    (newRecord raw vcf).b.dFlt = some raw.rawFlt := by
  cases h : vcf.lazy <;> simp [newRecord, bcf_unpack, h]

theorem newRecord_vcf_eq (raw : BcfRaw) (vcf : VCFCtx) :
    (newRecord raw vcf).vcf = vcf := rfl

/-! ## Claim theorems -/

/-- C10: `Record.__init__` raises `TypeError` for any arguments, so a
`Record` cannot be constructed directly; records come only from
`newRecord`, which attaches the raw buffer and the owning file. -/
theorem record_init_always_raises (nargs nkwargs : Nat) (raw : BcfRaw)
    (vcf : VCFCtx) :
    recordInitRaises nargs nkwargs = Except.error PyErr.typeError ∧
    (newRecord raw vcf).b.raw = raw ∧
    (newRecord raw vcf).vcf = vcf :=
  ⟨rfl, newRecord_b_raw raw vcf, rfl⟩

/-- C5: for the same raw record, the CHROM, POS, REF, ALT, QUAL and FILTER
accessors return identical values in eager mode and in lazy mode (the two
`bcf_unpack` masks both cover every variant-level group the accessors
read). -/
theorem eager_lazy_parity (raw : BcfRaw) (hdrC hdrF : Int → String)
    (pass0 : Int) :
    (newRecord raw ⟨hdrC, hdrF, false⟩).CHROM =
      (newRecord raw ⟨hdrC, hdrF, true⟩).CHROM ∧
    (newRecord raw ⟨hdrC, hdrF, false⟩).POS =
      (newRecord raw ⟨hdrC, hdrF, true⟩).POS ∧
    (newRecord raw ⟨hdrC, hdrF, false⟩).REF =
      (newRecord raw ⟨hdrC, hdrF, true⟩).REF ∧
    (newRecord raw ⟨hdrC, hdrF, false⟩).ALT =
      (newRecord raw ⟨hdrC, hdrF, true⟩).ALT ∧
    (newRecord raw ⟨hdrC, hdrF, false⟩).QUAL =
      (newRecord raw ⟨hdrC, hdrF, true⟩).QUAL ∧
    (newRecord raw ⟨hdrC, hdrF, false⟩).FILTER pass0 =
      (newRecord raw ⟨hdrC, hdrF, true⟩).FILTER pass0 :=
  ⟨rfl, rfl, rfl, rfl, rfl, rfl⟩

/-- C6: QUAL tests the internal 32-bit float for the exact reserved
missing bit pattern: the accessor returns the absence marker exactly on
that pattern, and returns any other bit pattern (NaN or not, including
0.0) unchanged. -/
theorem qual_exact_bit_pattern (r : Record) :
    (r.QUAL = QualVal.missing ↔ r.b.raw.qualBits = bcf_float_missing) ∧
    (r.b.raw.qualBits ≠ bcf_float_missing →
      r.QUAL = QualVal.val r.b.raw.qualBits) := by
  unfold Record.QUAL bcf_float_is_missing
  by_cases h : r.b.raw.qualBits = bcf_float_missing <;> simp [h]

/-- C6 witness: the sentinel pattern gives the absence marker, while the
quiet NaN `0x7fc00000` (a genuine NaN distinct from the sentinel) and the
`0.0` pattern are returned unchanged — so the detection is not a generic
NaN test. -/
theorem qual_exact_bit_pattern_witness :
    isNanBits 0x7fc00000 ∧
    (0x7fc00000 : Nat) ≠ bcf_float_missing ∧
    (newRecord demoRawQualNan demoCtx).QUAL = QualVal.val 0x7fc00000 ∧
    (newRecord demoRaw demoCtx).QUAL = QualVal.val 0 ∧
    (newRecord demoRawQualMissing demoCtx).QUAL = QualVal.missing :=
  ⟨by decide, by decide,
   (qual_exact_bit_pattern (newRecord demoRawQualNan demoCtx)).2 (by decide),
   (qual_exact_bit_pattern (newRecord demoRaw demoCtx)).2 (by decide),
   (qual_exact_bit_pattern (newRecord demoRawQualMissing demoCtx)).1.mpr
     (by decide)⟩

/-- C4 (code bug): requesting `["A","B","Z"]` against a file holding only
`["A","B"]` makes `set_samples` raise `TypeError` instead of warning —
`samples != "-"` compares bytes with str (always unequal) and then
`samples.split(",")` splits bytes with a str separator, which raises.
Requesting `None` leaves all samples active with no warning, as claimed. -/
theorem set_samples_missing_sample_raises :
    set_samples ["A", "B"] (SamplesArg.listArg ["A", "B", "Z"]) =
      Except.error PyErr.typeError ∧
    set_samples ["A", "B"] SamplesArg.nullArg = Except.ok [] :=
  ⟨rfl, rfl⟩

/-- C3 counterexample: on a file whose four native handles are all live,
`__dealloc__` frees the header first, then closes the stream, and frees
the index structures last — not index first as claimed. -/
theorem dealloc_order_counterexample :
    (vcfFileDealloc allHandles).2 =
      [FreeEvent.freeHdr, FreeEvent.closeHts, FreeEvent.freeTbx,
       FreeEvent.freeHtsIdx] ∧
    [FreeEvent.freeHdr, FreeEvent.closeHts, FreeEvent.freeTbx,
       FreeEvent.freeHtsIdx] ≠
      [FreeEvent.freeTbx, FreeEvent.freeHtsIdx, FreeEvent.freeHdr,
       FreeEvent.closeHts] := by
  decide

/-- C3 amended: teardown frees the header struct first, then the stream,
then any index structures; the header and stream pointers are nulled after
release, and since this module never assigns the index pointers, a second
teardown of any file state it constructs releases nothing twice. -/
theorem dealloc_order_and_idempotent (st : FileHandles)
    (h : st.idx = false ∧ st.hidx = false) :
    (vcfFileDealloc allHandles).2 =
      [FreeEvent.freeHdr, FreeEvent.closeHts, FreeEvent.freeTbx,
       FreeEvent.freeHtsIdx] ∧
    vcfFileDealloc (vcfFileDealloc st).1 = ((vcfFileDealloc st).1, []) := by
  obtain ⟨h1, h2⟩ := h
  obtain ⟨hdr, hts, idx, hidx⟩ := st
  dsimp only at h1 h2
  subst h1 h2
  cases hdr <;> cases hts <;> exact ⟨by decide, by decide⟩

/-- C3 witness: on the handle state this module actually produces (header
and stream live, indexes never assigned), a second teardown is a no-op. -/
theorem dealloc_order_and_idempotent_witness :
    (moduleHandles.idx = false ∧ moduleHandles.hidx = false) ∧
    vcfFileDealloc (vcfFileDealloc moduleHandles).1 =
      ((vcfFileDealloc moduleHandles).1, []) :=
  ⟨⟨rfl, rfl⟩,
   (dealloc_order_and_idempotent moduleHandles ⟨rfl, rfl⟩).2⟩

/-- C1 counterexample: with the PASS id cached as 3, a record whose single
filter id 5 resolves to `q10` makes FILTER return the plain string `q10`
(the degenerate one-element join, reached by fall-through), not the
single-element sequence `["q10"]` the claim requires. -/
theorem filter_cached_counterexample :
    ((newRecord demoRawQ10 demoCtx).FILTER 3).1 =
      some (PyFilterVal.str "q10") ∧
    some (PyFilterVal.str "q10") ≠ some (PyFilterVal.list ["q10"]) := by
  decide

/-- C1 amended: with the PASS id cached, FILTER returns the empty sequence
for zero filter ids; the empty sequence for one id equal to the cached
PASS id; the resolved name as a single plain string (not a one-element
sequence) for one id different from the cached PASS id; and the names
joined by `;` into one combined string for two or more ids.  The cache is
never modified. -/
theorem filter_cached_table (raw : BcfRaw) (vcf : VCFCtx) (pass0 : Int)
    (hc : pass0 ≠ -1) :
    (raw.rawFlt = [] →
      (newRecord raw vcf).FILTER pass0 = (some (PyFilterVal.list []), pass0)) ∧
    (∀ i : Int, raw.rawFlt = [i] → i = pass0 →
      (newRecord raw vcf).FILTER pass0 = (some (PyFilterVal.list []), pass0)) ∧
    (∀ i : Int, raw.rawFlt = [i] → i ≠ pass0 →
      (newRecord raw vcf).FILTER pass0 =
        (some (PyFilterVal.str (vcf.int2id i)), pass0)) ∧
    (2 ≤ raw.rawFlt.length →
      (newRecord raw vcf).FILTER pass0 =
        (some (PyFilterVal.str
          (String.intercalate ";" (raw.rawFlt.map vcf.int2id))), pass0)) := by
  refine ⟨?_, ?_, ?_, ?_⟩
  · intro h
    simp [Record.FILTER, newRecord_b_dFlt, newRecord_vcf_eq, h]
  · intro i h hi
    simp [Record.FILTER, newRecord_b_dFlt, newRecord_vcf_eq, h, hc, hi]
  · intro i h hi
    simp [Record.FILTER, newRecord_b_dFlt, newRecord_vcf_eq, h, hc, hi,
      String.intercalate]
    rfl
  · intro h
    have h1 : raw.rawFlt.length ≠ 1 := by omega
    have h0 : raw.rawFlt.length ≠ 0 := by omega
    simp [Record.FILTER, newRecord_b_dFlt, newRecord_vcf_eq, h1, h0]

/-- C1 witness: cached PASS id 3; a lone id 5 resolving to `q10` yields
the plain string, and the pair `[5, 7]` yields the `;`-joined string. -/
theorem filter_cached_table_witness :
    (3 : Int) ≠ -1 ∧
    (newRecord demoRawQ10 demoCtx).FILTER 3 =
      (some (PyFilterVal.str (demoCtx.int2id 5)), 3) ∧
    (newRecord demoRaw demoCtx).FILTER 3 =
      (some (PyFilterVal.str
        (String.intercalate ";" (demoRaw.rawFlt.map demoCtx.int2id))), 3) :=
  ⟨by decide,
   (filter_cached_table demoRawQ10 demoCtx 3 (by decide)).2.2.1 5 rfl
     (by decide),
   (filter_cached_table demoRaw demoCtx 3 (by decide)).2.2.2 (by decide)⟩

/-- C2 counterexample: with the PASS id not yet cached, a record whose
single filter id 0 resolves to the name `PASS` makes FILTER cache the id
and return the one-element list `["PASS"]`, not the empty sequence the
claim requires. -/
theorem filter_uncached_counterexample :
    (newRecord demoRawPass demoCtx).FILTER (-1) =
      (some (PyFilterVal.list ["PASS"]), 0) ∧
    (some (PyFilterVal.list ["PASS"]), (0 : Int)) ≠
      (some (PyFilterVal.list []), (0 : Int)) := by
  decide

/-- C2 amended: with one filter id and the PASS id not yet cached, FILTER
resolves the id through the header dictionary; if the name is exactly
`PASS` it stores the id in the cache and returns the one-element sequence
`["PASS"]` (not the empty sequence), and otherwise it returns the resolved
name as a plain string (not a one-element sequence) leaving the cache
unset.  Once the cache is set, no FILTER call ever rewrites it, so the
cache is written at most once per file. -/
theorem filter_uncached_table (raw : BcfRaw) (vcf : VCFCtx) (i : Int)
    (h1 : raw.rawFlt = [i]) :
    (vcf.int2id i = "PASS" →
      (newRecord raw vcf).FILTER (-1) =
        (some (PyFilterVal.list ["PASS"]), i)) ∧
    (vcf.int2id i ≠ "PASS" →
      (newRecord raw vcf).FILTER (-1) =
        (some (PyFilterVal.str (vcf.int2id i)), -1)) ∧
    (∀ (raw2 : BcfRaw) (pass0 : Int), pass0 ≠ -1 →
      ((newRecord raw2 vcf).FILTER pass0).2 = pass0) := by
  refine ⟨?_, ?_, ?_⟩
  · intro hp
    simp [Record.FILTER, newRecord_b_dFlt, newRecord_vcf_eq, h1, hp]
  · intro hp
    simp [Record.FILTER, newRecord_b_dFlt, newRecord_vcf_eq, h1, hp]
  · intro raw2 pass0 hp
    simp only [Record.FILTER, newRecord_b_dFlt, newRecord_vcf_eq]
    by_cases hn1 : raw2.rawFlt.length = 1
    · by_cases he : raw2.rawFlt.headI = pass0 <;> simp [hn1, hp, he]
    · by_cases hn0 : raw2.rawFlt.length = 0 <;> simp [hn1, hn0]

/-- C2 witness: filter id 0 resolves to `PASS`, is cached, and `["PASS"]`
is returned; filter id 5 resolves to `q10` and the plain string comes
back with the cache still unset; a later call with the cache set at 3
leaves it at 3. -/
theorem filter_uncached_table_witness :
    demoRawPass.rawFlt = [0] ∧
    demoCtx.int2id 0 = "PASS" ∧
    (newRecord demoRawPass demoCtx).FILTER (-1) =
      (some (PyFilterVal.list ["PASS"]), 0) ∧
    (newRecord demoRawQ10 demoCtx).FILTER (-1) =
      (some (PyFilterVal.str (demoCtx.int2id 5)), -1) ∧
    ((newRecord demoRaw demoCtx).FILTER 3).2 = 3 :=
  ⟨rfl, rfl,
   (filter_uncached_table demoRawPass demoCtx 0 rfl).1 rfl,
   (filter_uncached_table demoRawQ10 demoCtx 5 rfl).2.1 (by decide),
   (filter_uncached_table demoRawPass demoCtx 0 rfl).2.2 demoRaw 3
     (by decide)⟩

/-- Reading back every index of a list via `getD` over `range` returns the
list. -/
theorem map_getD_range {α : Type*} (xs : List α) (d : α) :
    (List.range xs.length).map (fun i => xs.getD i d) = xs := by
  induction xs with
  | nil => simp
  | cons x t ih =>
    rw [List.length_cons, List.range_succ_eq_map, List.map_cons,
      List.map_map]
    simpa [Function.comp_def] using ih

/-- C7: POS is the internal 0-based offset plus 1; REF is the allele at
index 0; ALT is exactly the alleles at indices `1..n_allele-1` in order
(stated through index reads over `range n_allele`), and is empty when
`n_allele = 1`. -/
theorem pos_ref_alt_table (raw : BcfRaw) (vcf : VCFCtx)
    (h : raw.rawAlleles ≠ []) :
    (newRecord raw vcf).POS = raw.pos + 1 ∧
    (newRecord raw vcf).REF = some (raw.rawAlleles.getD 0 "") ∧
    (newRecord raw vcf).ALT =
      some (((List.range raw.rawAlleles.length).drop 1).map
        (fun i => raw.rawAlleles.getD i "")) ∧
    (raw.rawAlleles.length = 1 → (newRecord raw vcf).ALT = some []) := by
  refine ⟨?_, ?_, ?_, ?_⟩
  · simp [Record.POS, newRecord_b_raw]
  · simp only [Record.REF, newRecord_b_dStr, Option.bind_some]
    cases hA : raw.rawAlleles with
    | nil => exact absurd hA h
    | cons a t => simp [hA]
  · simp only [Record.ALT, newRecord_b_dStr, Option.map_some]
    cases hA : raw.rawAlleles with
    | nil => exact absurd hA h
    | cons a t =>
      have hrg : (List.map (fun i => (a :: t).getD i "")
          (List.drop 1 (List.range (a :: t).length))) = t := by
        rw [List.length_cons, List.range_succ_eq_map, List.drop_succ_cons,
          List.drop_zero, List.map_map]
        simpa [Function.comp_def] using map_getD_range t ""
      rw [hrg]
      rfl
  · intro h1
    simp only [Record.ALT, newRecord_b_dStr, Option.map_some]
    cases hA : raw.rawAlleles with
    | nil => exact absurd hA h
    | cons a t =>
      rw [hA] at h1
      simp only [List.length_cons, Nat.add_left_eq_self,
        List.length_eq_zero] at h1
      simp [hA, h1]

/-- C7 witness: a record with offset 99 and alleles `A`, `C`, `T` exposes
POS 100, REF `A` and ALT `["C", "T"]`. -/
theorem pos_ref_alt_table_witness :
    demoRaw.rawAlleles ≠ [] ∧
    (newRecord demoRaw demoCtx).POS = demoRaw.pos + 1 ∧
    (newRecord demoRaw demoCtx).REF = some (demoRaw.rawAlleles.getD 0 "") ∧
    demoRaw.pos + 1 = 100 ∧ demoRaw.rawAlleles.getD 0 "" = "A" ∧
    (newRecord demoRaw demoCtx).ALT =
      some (((List.range demoRaw.rawAlleles.length).drop 1).map
        (fun i => demoRaw.rawAlleles.getD i "")) ∧
    ((List.range demoRaw.rawAlleles.length).drop 1).map
        (fun i => demoRaw.rawAlleles.getD i "") = ["C", "T"] :=
  ⟨by decide, (pos_ref_alt_table demoRaw demoCtx (by decide)).1,
   (pos_ref_alt_table demoRaw demoCtx (by decide)).2.1,
   by decide, by decide,
   (pos_ref_alt_table demoRaw demoCtx (by decide)).2.2.1, by decide⟩

/-- A split never produces the empty list of chunks. -/
theorem pySplitCharList_ne_nil (sep : Char) (cs acc : List Char) :
    pySplitCharList sep cs acc ≠ [] := by
  induction cs generalizing acc with
  | nil => simp [pySplitCharList]
  | cons c cs ih =>
    by_cases h : c = sep <;> simp [pySplitCharList, h, ih]

/-- No chunk of a split contains the separator, provided the running
accumulator does not. -/
theorem pySplitCharList_no_sep (sep : Char) (cs acc : List Char)
    (hacc : sep ∉ acc) :
    ∀ p ∈ pySplitCharList sep cs acc, sep ∉ p.data := by
  induction cs generalizing acc with
  | nil =>
    intro p hp
    simp [pySplitCharList] at hp
    subst hp
    simpa using hacc
  | cons c cs ih =>
    intro p hp
    by_cases h : c = sep
    · simp only [pySplitCharList, h, if_pos rfl] at hp
      rcases List.mem_cons.mp hp with h1 | h2
      · subst h1; simpa using hacc
      · exact ih [] (by simp) p h2
    · simp only [pySplitCharList, if_neg h] at hp
      refine ih (c :: acc) ?_ p hp
      intro hmem
      rcases List.mem_cons.mp hmem with h1 | h2
      · exact h h1.symm
      · exact hacc h2

/-- Joining the chunks of a split with the separator restores the input
(prefixed by the reversed accumulator). -/
theorem pySplitCharList_join (sep : Char) (cs acc : List Char) :
    joinCharLists sep ((pySplitCharList sep cs acc).map String.data) =
      acc.reverse ++ cs := by
  induction cs generalizing acc with
  | nil => simp [pySplitCharList, joinCharLists]
  | cons c cs ih =>
    by_cases h : c = sep
    · have hsplit : pySplitCharList sep (c :: cs) acc
          = String.mk acc.reverse :: pySplitCharList sep cs [] := by
        simp [pySplitCharList, h]
      rw [hsplit, List.map_cons]
      obtain ⟨z, zs, hz⟩ := List.exists_cons_of_ne_nil
        (show (pySplitCharList sep cs []).map String.data ≠ [] from
          fun he => pySplitCharList_ne_nil sep cs []
            (List.map_eq_nil_iff.mp he))
      rw [hz]
      have hj : joinCharLists sep ((String.mk acc.reverse).data :: z :: zs)
          = (String.mk acc.reverse).data ++ sep :: joinCharLists sep (z :: zs) :=
        rfl
      rw [hj, ← hz]
      have hIH := ih []
      rw [List.reverse_nil, List.nil_append] at hIH
      rw [hIH, h]
    · have hsplit : pySplitCharList sep (c :: cs) acc
          = pySplitCharList sep cs (c :: acc) := by
        simp [pySplitCharList, h]
      rw [hsplit, ih (c :: acc)]
      simp

/-- C8: the ID accessor maps the internal single string to a sequence —
the sentinel `.` yields the empty sequence, and any other value is split
on `;` into an ordered sequence of id strings (the chunks are free of
`;` and joining them back with `;` restores the internal value). -/
theorem id_split_table (raw : BcfRaw) (vcf : VCFCtx) :
    (raw.rawId = "." → (newRecord raw vcf).ID = some []) ∧
    (raw.rawId ≠ "." →
      (newRecord raw vcf).ID = some (pySplit raw.rawId semiChar) ∧
      pySplit raw.rawId semiChar ≠ [] ∧
      (∀ p ∈ pySplit raw.rawId semiChar, semiChar ∉ p.data) ∧
      joinCharLists semiChar
        ((pySplit raw.rawId semiChar).map String.data) = raw.rawId.data) := by
  constructor
  · intro h
    simp [Record.ID, newRecord_b_dStr, h]
  · intro h
    refine ⟨by simp [Record.ID, newRecord_b_dStr, h], ?_, ?_, ?_⟩
    · exact pySplitCharList_ne_nil semiChar raw.rawId.data []
    · exact pySplitCharList_no_sep semiChar raw.rawId.data [] (by simp)
    · simpa using pySplitCharList_join semiChar raw.rawId.data []

/-- C8 witness: the internal value `rs1;rs2` is exposed as
`["rs1", "rs2"]` and the sentinel `.` as `[]`. -/
theorem id_split_table_witness :
    demoRaw.rawId ≠ "." ∧
    (newRecord demoRaw demoCtx).ID = some (pySplit demoRaw.rawId semiChar) ∧
    pySplit demoRaw.rawId semiChar = ["rs1", "rs2"] ∧
    demoRawDot.rawId = "." ∧
    (newRecord demoRawDot demoCtx).ID = some [] :=
  ⟨by decide, ((id_split_table demoRaw demoCtx).2 (by decide)).1, by decide,
   rfl, (id_split_table demoRawDot demoCtx).1 rfl⟩

/-- C9: decoding a header blob of N raw entries yields exactly N header
lines in the same order; a generic-kind entry becomes a plain key/value
line, any other entry is dispatched to the parser registered for its tag,
falling back to the default parser for unregistered tags. -/
theorem header_order_dispatch (tags : List String) (hrecs : List BcfHrec) :
    (load_header tags hrecs).length = hrecs.length ∧
    (∀ i : Nat, (load_header tags hrecs)[i]? =
      (hrecs[i]?).map (buildHeaderLine tags)) ∧
    (∀ hrec : BcfHrec, hrec.type = HrecType.gen →
      buildHeaderLine tags hrec = HLine.generic hrec.key hrec.value) ∧
    (∀ hrec : BcfHrec, hrec.type ≠ HrecType.gen → tags.contains hrec.key →
      ∃ m, buildHeaderLine tags hrec = HLine.parsed hrec.key hrec.key m) ∧
    (∀ hrec : BcfHrec, hrec.type ≠ HrecType.gen → ¬tags.contains hrec.key →
      ∃ m, buildHeaderLine tags hrec =
        HLine.parsed "__default__" hrec.key m) := by
  refine ⟨List.length_map _ _, ?_, ?_, ?_, ?_⟩
  · intro i
    exact List.getElem?_map ..
  · intro hrec h
    simp [buildHeaderLine, h]
  · intro hrec h1 h2
    refine ⟨String.intercalate ","
      ((orderedDictOfPairs hrec.pairs).map fun kv =>
        kv.1 ++ "=" ++ pyRepr kv.2), ?_⟩
    have h2m : hrec.key ∈ tags := by simpa using h2
    simp [buildHeaderLine, buildParsed, h1, h2m]
  · intro hrec h1 h2
    refine ⟨String.intercalate ","
      ((orderedDictOfPairs hrec.pairs).map fun kv =>
        kv.1 ++ "=" ++ pyRepr kv.2), ?_⟩
    have h2m : hrec.key ∉ tags := by simpa using h2
    simp [buildHeaderLine, buildParsed, h1, h2m]

/-- C9 witness: four demo entries (a registered `INFO` line, a generic
`source` line, an unregistered `MYTAG` line, and a repeat of the first)
produce four lines in order, with the expected dispatch. -/
theorem header_order_dispatch_witness :
    (load_header demoTags demoHrecs).length = demoHrecs.length ∧
    demoHrecs.length = 4 ∧
    buildHeaderLine demoTags ⟨HrecType.gen, "source", "demo", []⟩ =
      HLine.generic "source" "demo" ∧
    (∃ m, buildHeaderLine demoTags
        ⟨HrecType.structured, "INFO", "", [("ID", "DP"), ("Number", "1")]⟩ =
      HLine.parsed "INFO" "INFO" m) ∧
    (∃ m, buildHeaderLine demoTags
        ⟨HrecType.structured, "MYTAG", "", [("ID", "x")]⟩ =
      HLine.parsed "__default__" "MYTAG" m) :=
  ⟨(header_order_dispatch demoTags demoHrecs).1, by decide,
   (header_order_dispatch demoTags demoHrecs).2.2.1 _ rfl,
   (header_order_dispatch demoTags demoHrecs).2.2.2.1 _ (by decide)
     (by decide),
   (header_order_dispatch demoTags demoHrecs).2.2.2.2 _ (by decide)
     (by decide)⟩

end Cyhtslib
